import Mathlib

/-!
Verification of the mpact-riscv RV32 bit-manipulation semantic functions
(src/riscv/riscv_bitmanip_instructions.cc) and of the simulator driver
(src/riscv/rv32gv_sim.cc).

Register values are 32-bit unsigned integers, modelled as natural numbers;
every C++ uint32 operation that can exceed 32 bits takes its result mod 2^32.
The semantic content of each RiscV* instruction function is the lambda passed
to RiscVBinaryOp or RiscVUnaryOp; those lambdas are embedded here under the
same names as the C++ wrapper functions.
-/

namespace MpactRiscv

namespace RV32

/-- Models C++ operator~ on uint32: flip all 32 bits. -/
def complement32 (x : Nat) : Nat := (2 ^ 32 - 1) ^^^ x

/-- RiscVAndn lambda: a & ~b. -/
def RiscVAndn (a b : Nat) : Nat := a &&& complement32 b

/-- RiscVOrn lambda: a | ~b. -/
def RiscVOrn (a b : Nat) : Nat := a ||| complement32 b

/-- RiscVXnor lambda: ~(a ^ b). -/
def RiscVXnor (a b : Nat) : Nat := complement32 (a ^^^ b)

/-- RiscVClz lambda: absl countl_zero on uint32, the number of consecutive
zero bits starting from the most significant bit; 32 when a is 0. -/
def RiscVClz (a : Nat) : Nat :=
  ((List.range 32).find? (fun i => a.testBit (31 - i))).getD 32

/-- RiscVCtz lambda: absl countr_zero on uint32, the number of consecutive
zero bits starting from the least significant bit; 32 when a is 0. -/
def RiscVCtz (a : Nat) : Nat :=
  ((List.range 32).find? (fun i => a.testBit i)).getD 32

/-- RiscVCpop lambda: absl popcount on uint32, the number of set bits. -/
def RiscVCpop (a : Nat) : Nat :=
  ((List.range 32).filter (fun i => a.testBit i)).length

/-- RiscVrol lambda: (a << b) | (a >> (32 - b)), with no masking of b and no
guard for b = 0. In C++ both operands are uint32, so 32 - b wraps mod 2^32,
and a shift by 32 or more is undefined behavior; the model adopts the
value-truncating reading of such shifts (they produce 0). -/
def RiscVrol (a b : Nat) : Nat :=
  ((a <<< b) % 2 ^ 32) ||| (a >>> ((32 + 2 ^ 32 - b) % 2 ^ 32))

/-- RiscVror lambda: (a >> b) | (a << (32 - b)), same caveats as RiscVrol. -/
def RiscVror (a b : Nat) : Nat :=
  (a >>> b) ||| ((a <<< ((32 + 2 ^ 32 - b) % 2 ^ 32)) % 2 ^ 32)

/-- One iteration of the RiscVRev8 loop body on the pair (result, a):
result = (result << 8) | (a & 0xff); a = a >> 8. -/
def rev8Step (p : Nat × Nat) : Nat × Nat :=
  (((p.1 <<< 8) % 2 ^ 32) ||| (p.2 &&& 0xff), p.2 >>> 8)

/-- RiscVRev8 lambda: the loop body rev8Step run four times (i from 0 to 3)
starting from result = 0, returning the final result. -/
def RiscVRev8 (a : Nat) : Nat :=
  (rev8Step (rev8Step (rev8Step (rev8Step (0, a))))).1

/-- RiscVClmul lambda: for i in [0, 32), xor in (a << i) when bit i of b is
set; a << i is a uint32 shift, hence taken mod 2^32. -/
def RiscVClmul (a b : Nat) : Nat :=
  (List.range 32).foldl
    (fun result i =>
      if (b >>> i) &&& 1 = 1 then result ^^^ ((a <<< i) % 2 ^ 32) else result)
    0

/-- RiscVClmulh lambda: for i in [1, 32), xor in (a >> (32 - i)) when bit i
of b is set. -/
def RiscVClmulh (a b : Nat) : Nat :=
  (List.range' 1 31).foldl
    (fun result i =>
      if (b >>> i) &&& 1 = 1 then result ^^^ (a >>> (32 - i)) else result)
    0

/-- RiscVClmulr lambda: for i in [0, 31), xor in (a >> (32 - i - 1)) when bit
i of b is set. Note the loop bound: i stops at 30, it never reaches 31. -/
def RiscVClmulr (a b : Nat) : Nat :=
  (List.range 31).foldl
    (fun result i =>
      if (b >>> i) &&& 1 = 1 then result ^^^ (a >>> (32 - i - 1)) else result)
    0

/-- RiscVBclr lambda: a & ~(1 << (b & 0x1f)). -/
def RiscVBclr (a b : Nat) : Nat := a &&& complement32 (1 <<< (b &&& 0x1f))

/-- RiscVBext lambda: (a >> (b & 0x1f)) & 1. -/
def RiscVBext (a b : Nat) : Nat := (a >>> (b &&& 0x1f)) &&& 0x1

/-- RiscVBinv lambda: a ^ (1 << (b & 0x1f)). -/
def RiscVBinv (a b : Nat) : Nat := a ^^^ (1 <<< (b &&& 0x1f))

/-- RiscVBset lambda: a | (1 << (b & 0x1f)). -/
def RiscVBset (a b : Nat) : Nat := a ||| (1 <<< (b &&& 0x1f))

/-- The mathematical carry-less (GF(2) polynomial) product of two 32-bit
operands: the xor over every set bit i of b of a shifted left by i, with no
truncation. Used as the reference value for the clmul family. -/
def clmulPoly (a b : Nat) : Nat :=
  (List.range 32).foldl
    (fun acc i => if b.testBit i then acc ^^^ (a <<< i) else acc) 0

end RV32

/-!
Embedding of the driver logic of main in rv32gv_sim.cc that the claims are
about: the semihosting-flag conflict check and the stack-pointer
initialization block.
-/

/-- The stack-related facts main reads from the ELF loader: the value of the
__stack_end symbol, the value of the __stack_size symbol, and the GNU_STACK
segment size returned by GetStackSize, each absent when the lookup fails. -/
structure ElfStackInfo where
  stackEndSymbol : Option Nat
  stackSizeSymbol : Option Nat
  gnuStackSize : Option Nat

/-- absl GetFlag for the stack_end flag, declared as optional uint64 with
default value 0: when the flag is absent from the command line the default 0
is an engaged optional, so the result always holds a value. -/
def stackEndFlag (cmdline : Option Nat) : Option Nat := some (cmdline.getD 0)

/-- absl GetFlag for the stack_size flag, declared as optional uint64 with
default value 32 * 1024: when absent from the command line the result is the
engaged default, so it always holds a value. -/
def stackSizeFlag (cmdline : Option Nat) : Option Nat :=
  some (cmdline.getD (32 * 1024))

/-- The stack-pointer initialization block of main (rv32gv_sim.cc lines
280 to 324), returning the value written to sp, or none when the stack
pointer is left uninitialized. Faithful to the source: the __stack_end
symbol is read first, the stack_end flag overrides it when it has a value,
and inside the initialization branch the GetStackSize result is assigned to
stack_end (not to stack_size), then the __stack_size symbol and the
stack_size flag successively override stack_size. -/
def initSp (elf : ElfStackInfo) (cmdStackEnd cmdStackSize : Option Nat) :
    Option Nat :=
  let s1 : Nat × Bool :=
    match elf.stackEndSymbol with
    | some v => (v, true)
    | none => (0, false)
  let s2 : Nat × Bool :=
    match stackEndFlag cmdStackEnd with
    | some v => (v, true)
    | none => s1
  if s2.2 then
    let stackEnd1 : Nat :=
      match elf.gnuStackSize with
      | some v => v
      | none => s2.1
    let stackSize1 : Nat :=
      match elf.stackSizeSymbol with
      | some v => v
      | none => 32 * 1024
    let stackSize2 : Nat :=
      match stackSizeFlag cmdStackSize with
      | some v => v
      | none => stackSize1
    some ((stackEnd1 + stackSize2) % 2 ^ 64)
  else none

/-- Outcome of the early part of main in rv32gv_sim.cc. -/
inductive SimOutcome where
  | exitError (code : Int)
  | coreStarted (conflictLogged : Bool)
deriving DecidableEq

/-- Control flow of main (rv32gv_sim.cc lines 207 to 259): when both
semihost_htif and semihost_arm are set, an error is logged to the diagnostic
stream but execution continues; a nonzero early exit happens only for more
than one positional argument or a failed program load, after which the core
(RiscVTop) is constructed and the simulation proceeds. -/
def mainOutcome (semihostHtif semihostArm : Bool) (numArgs : Nat)
    (loadOk : Bool) : SimOutcome :=
  let conflictLogged := semihostHtif && semihostArm
  if numArgs > 2 then .exitError (-1)
  else if !loadOk then .exitError (-1)
  else .coreStarted conflictLogged

end MpactRiscv

namespace MpactRiscv

open RV32

/-- Claim C1 (code bug): for an ELF defining __stack_end = 0x200000 and
__stack_size = 0x8000, no GNU_STACK segment and no command-line flags, the
code writes sp = 0x8000, not the claimed 0x208000: the engaged default of the
stack_end flag (value 0) always overrides the __stack_end symbol, and the
engaged default of the stack_size flag (32768) always overrides the
__stack_size symbol. -/
theorem initSp_stack_example :
    initSp ⟨some 0x200000, some 0x8000, none⟩ none none = some 0x8000 ∧
      (0x8000 : Nat) ≠ 0x208000 := by
  exact ⟨rfl, by decide⟩

/-- Claim C3 (code bug): with both semihosting flags set, a single input file
and a successful load, main logs the conflict but still constructs and starts
the core instead of exiting with a nonzero code. -/
theorem mainOutcome_both_semihost :
    mainOutcome true true 2 true = .coreStarted true := rfl

/-- Claim C5 (code bug): the clmulr loop stops at i = 30, omitting the i = 31
term, so for a = 1, b = 2^31 the code returns 0 while bits [62:31] of the
carry-less product equal 1. -/
theorem clmulr_misses_top_bit :
    RiscVClmulr 1 (2 ^ 31) = 0 ∧
      (clmulPoly 1 (2 ^ 31) >>> 31) % 2 ^ 32 = 1 := by
  exact ⟨by decide, by decide⟩

/-- Claim C10 (code bug): at a = 2, b = 2^31 the code gives clmulh = 1 but
clmulr >> 1 = 0, because the clmulr loop omits its i = 31 term; the claimed
identity clmulh(a, b) = clmulr(a, b) >> 1 fails on the code. -/
theorem clmulh_ne_clmulr_shift :
    RiscVClmulh 2 (2 ^ 31) = 1 ∧ RiscVClmulr 2 (2 ^ 31) >>> 1 = 0 := by
  exact ⟨by decide, by decide⟩

/-- Helper: a right shift of 1 by any positive amount gives 0. -/
theorem one_shiftRight_pos {k : Nat} (h : k ≠ 0) : (1 : Nat) >>> k = 0 := by
  rw [Nat.shiftRight_eq_div_pow]
  exact Nat.div_eq_of_lt (Nat.one_lt_two_pow h)

/-- Helper: a left shift of 1 by 32 or more vanishes mod 2^32. -/
theorem one_shiftLeft_mod_32 {k : Nat} (h : 32 ≤ k) :
    ((1 : Nat) <<< k) % 2 ^ 32 = 0 := by
  rw [Nat.one_shiftLeft]
  obtain ⟨c, hc⟩ : (2 : Nat) ^ 32 ∣ 2 ^ k := pow_dvd_pow 2 h
  rw [hc]
  exact Nat.mul_mod_right _ _

/-- Claim C2 (code bug): the rotate lambdas do not mask the shift amount to
its low 5 bits: at a = 1, b = 33 the left rotate evaluates to 0, while
masking would give rol(1, 33 mod 32) = rol(1, 1) = 2; likewise for ror. At
b = 0 the code shifts a 32-bit value by 32, which is undefined behavior in
C++ rather than a guarded identity. -/
theorem rol_ror_unmasked :
    RiscVrol 1 33 = 0 ∧ RiscVrol 1 (33 % 32) = 2 ∧
      RiscVror 1 33 = 0 ∧ RiscVror 1 (33 % 32) = 2 ^ 31 := by
  have h1 : (32 + 2 ^ 32 - 33) % 2 ^ 32 = 2 ^ 32 - 1 := by norm_num
  refine ⟨?_, by decide, ?_, ?_⟩
  · show ((1 <<< 33) % 2 ^ 32) ||| (1 >>> ((32 + 2 ^ 32 - 33) % 2 ^ 32)) = 0
    rw [h1, one_shiftRight_pos (by norm_num)]
    decide
  · show (1 >>> 33) ||| ((1 <<< ((32 + 2 ^ 32 - 33) % 2 ^ 32)) % 2 ^ 32) = 0
    rw [h1, one_shiftLeft_mod_32 (by norm_num)]
    decide
  · show (1 >>> 1) ||| ((1 <<< ((32 + 2 ^ 32 - 1) % 2 ^ 32)) % 2 ^ 32) = 2 ^ 31
    have h2 : (32 + 2 ^ 32 - 1) % 2 ^ 32 = 31 := by norm_num
    rw [h2]
    decide

/-- Claim C9 (confirmed): for every 32-bit x, andn(x, 0) = x,
andn(x, ~0) = 0, orn(x, 0) = ~0 and xnor(x, x) = ~0, where ~0 is the
all-ones word 2^32 - 1. -/
theorem andn_orn_xnor_identities :
    ∀ x : Nat, x < 2 ^ 32 →
      RiscVAndn x 0 = x ∧ RiscVAndn x (2 ^ 32 - 1) = 0 ∧
        RiscVOrn x 0 = 2 ^ 32 - 1 ∧ RiscVXnor x x = 2 ^ 32 - 1 := by
  intro x hx
  refine ⟨?_, ?_, ?_, ?_⟩
  · show x &&& complement32 0 = x
    rw [complement32, Nat.xor_zero, Nat.and_pow_two_sub_one_eq_mod,
      Nat.mod_eq_of_lt hx]
  · show x &&& complement32 (2 ^ 32 - 1) = 0
    rw [complement32, Nat.xor_self, Nat.and_zero]
  · show x ||| complement32 0 = 2 ^ 32 - 1
    rw [complement32, Nat.xor_zero]
    apply Nat.eq_of_testBit_eq
    intro i
    simp only [Nat.testBit_or, Nat.testBit_two_pow_sub_one]
    by_cases hi : i < 32
    · simp [hi]
    · have hxi : x.testBit i = false :=
        Nat.testBit_lt_two_pow
          (lt_of_lt_of_le hx (Nat.pow_le_pow_right (by norm_num)
            (le_of_not_lt hi)))
      simp [hi, hxi]
  · show complement32 (x ^^^ x) = 2 ^ 32 - 1
    rw [Nat.xor_self, complement32, Nat.xor_zero]

/-- Witness for the C9 theorem at x = 0xDEADBEEF. -/
theorem andn_orn_xnor_identities_witness :
    RiscVAndn 0xDEADBEEF 0 = 0xDEADBEEF ∧
      RiscVAndn 0xDEADBEEF (2 ^ 32 - 1) = 0 ∧
        RiscVOrn 0xDEADBEEF 0 = 2 ^ 32 - 1 ∧
          RiscVXnor 0xDEADBEEF 0xDEADBEEF = 2 ^ 32 - 1 :=
  andn_orn_xnor_identities 0xDEADBEEF (by decide)

/-- Claim C8 (confirmed): clz(0) + ctz(0) = 64, clz(1 << k) = 31 - k for
every k below 32, and cpop of the all-ones word is 32. -/
theorem clz_ctz_cpop_values :
    RiscVClz 0 + RiscVCtz 0 = 64 ∧
      (∀ k : Nat, k < 32 → RiscVClz (1 <<< k) = 31 - k) ∧
        RiscVCpop (2 ^ 32 - 1) = 32 := by
  exact ⟨by decide, by decide, by decide⟩

/-- Witness for the C8 theorem at k = 7. -/
theorem clz_ctz_cpop_values_witness : RiscVClz (1 <<< 7) = 31 - 7 :=
  clz_ctz_cpop_values.2.1 7 (by decide)

/-- Helper: xor commutes with truncation to the low n bits. -/
theorem xor_mod_two_pow (x y n : Nat) :
    (x ^^^ y) % 2 ^ n = (x % 2 ^ n) ^^^ (y % 2 ^ n) := by
  apply Nat.eq_of_testBit_eq
  intro i
  simp only [Nat.testBit_mod_two_pow, Nat.testBit_xor]
  by_cases hi : i < n <;> simp [hi]

/-- Helper: the C++ guard (b >> i) & 1 == 1 is bit i of b. -/
theorem shift_and_one_testBit (b i : Nat) :
    ((b >>> i) &&& 1 = 1) ↔ b.testBit i = true := by
  rw [Nat.and_one_is_mod, Nat.shiftRight_eq_div_pow, Nat.testBit_to_div_mod]
  simp

/-- Helper: the truncating clmul fold equals the untruncated polynomial fold
mod 2^32, for any list of bit positions and any accumulator. -/
theorem clmul_fold_mod (a b : Nat) (L : List Nat) :
    ∀ r : Nat,
      L.foldl
          (fun result i =>
            if (b >>> i) &&& 1 = 1 then result ^^^ ((a <<< i) % 2 ^ 32)
            else result) (r % 2 ^ 32)
        = (L.foldl
            (fun acc i => if b.testBit i then acc ^^^ (a <<< i) else acc)
            r) % 2 ^ 32 := by
  induction L with
  | nil => intro r; simp
  | cons x xs ih =>
    intro r
    simp only [List.foldl_cons]
    by_cases h : b.testBit x
    · rw [if_pos ((shift_and_one_testBit b x).mpr h), if_pos h,
        ← xor_mod_two_pow]
      exact ih (r ^^^ (a <<< x))
    · rw [if_neg (fun hc => h ((shift_and_one_testBit b x).mp hc)), if_neg h]
      exact ih r

/-- Claim C4 (confirmed): the clmul semantic function returns the low 32 bits
of the carry-less polynomial product of its operands, and in particular
clmul(0xFFFFFFFF, 0xFFFFFFFF) = 0x55555555. -/
theorem clmul_low_bits :
    (∀ a b : Nat, RiscVClmul a b = clmulPoly a b % 2 ^ 32) ∧
      RiscVClmul 0xFFFFFFFF 0xFFFFFFFF = 0x55555555 := by
  constructor
  · intro a b
    have h := clmul_fold_mod a b (List.range 32) 0
    simpa [RiscVClmul, clmulPoly] using h
  · decide

/-- Helper: masking with 255 is reduction mod 256. -/
theorem and_255 (x : Nat) : x &&& 255 = x % 256 := by
  have h : (255 : Nat) = 2 ^ 8 - 1 := by norm_num
  rw [h, Nat.and_pow_two_sub_one_eq_mod]

/-- Helper: one rev8 loop iteration in arithmetic form, for accumulators
that still fit after the 8-bit shift. -/
theorem rev8Step_eq (r x : Nat) (hr : r < 2 ^ 24) :
    rev8Step (r, x) = (256 * r + x % 256, x / 256) := by
  unfold rev8Step
  dsimp only
  rw [Nat.shiftLeft_eq, and_255, Nat.shiftRight_eq_div_pow]
  have h1 : r * 2 ^ 8 < 2 ^ 32 := by
    have hr' : r < 16777216 := hr
    have : r * 256 < 4294967296 := by omega
    exact this
  rw [Nat.mod_eq_of_lt h1]
  have h2 : x % 256 < 2 ^ 8 := Nat.mod_lt x (by norm_num)
  rw [show r * 2 ^ 8 = 2 ^ 8 * r by ring, ← Nat.mul_add_lt_is_or h2 r]

/-- Helper: closed byte-reversal form of the rev8 lambda. -/
theorem rev8_eq (a : Nat) :
    RiscVRev8 a =
      256 * (256 * (256 * (a % 256) + a / 256 % 256) + a / 256 / 256 % 256) +
        a / 256 / 256 / 256 % 256 := by
  have e1 : rev8Step (0, a) = (256 * 0 + a % 256, a / 256) :=
    rev8Step_eq 0 a (by norm_num)
  have e2 : rev8Step (256 * 0 + a % 256, a / 256) =
      (256 * (256 * 0 + a % 256) + a / 256 % 256, a / 256 / 256) :=
    rev8Step_eq _ _ (by omega)
  have e3 : rev8Step (256 * (256 * 0 + a % 256) + a / 256 % 256,
        a / 256 / 256) =
      (256 * (256 * (256 * 0 + a % 256) + a / 256 % 256) + a / 256 / 256 % 256,
        a / 256 / 256 / 256) :=
    rev8Step_eq _ _ (by omega)
  have e4 : rev8Step
        (256 * (256 * (256 * 0 + a % 256) + a / 256 % 256) +
          a / 256 / 256 % 256, a / 256 / 256 / 256) =
      (256 * (256 * (256 * (256 * 0 + a % 256) + a / 256 % 256) +
          a / 256 / 256 % 256) + a / 256 / 256 / 256 % 256,
        a / 256 / 256 / 256 / 256) :=
    rev8Step_eq _ _ (by omega)
  show (rev8Step (rev8Step (rev8Step (rev8Step (0, a))))).1 = _
  rw [e1, e2, e3, e4]
  show 256 * (256 * (256 * (256 * 0 + a % 256) + a / 256 % 256) +
      a / 256 / 256 % 256) + a / 256 / 256 / 256 % 256 = _
  omega

/-- Helper: dividing off one byte of a nested base-256 numeral. -/
theorem divmod256 (x r : Nat) (h : r < 256) :
    (r + 256 * x) % 256 = r ∧ (r + 256 * x) / 256 = x := by omega

/-- Helper: rev8 on a four-byte numeral reverses the bytes. -/
theorem rev8_bytes (b0 b1 b2 b3 : Nat) (h0 : b0 < 256) (h1 : b1 < 256)
    (h2 : b2 < 256) (h3 : b3 < 256) :
    RiscVRev8 (b0 + 256 * (b1 + 256 * (b2 + 256 * b3))) =
      b3 + 256 * (b2 + 256 * (b1 + 256 * b0)) := by
  rw [rev8_eq]
  obtain ⟨m0, d0⟩ := divmod256 (b1 + 256 * (b2 + 256 * b3)) b0 h0
  rw [m0, d0]
  obtain ⟨m1, d1⟩ := divmod256 (b2 + 256 * b3) b1 h1
  rw [m1, d1]
  obtain ⟨m2, d2⟩ := divmod256 b3 b2 h2
  rw [m2, d2, Nat.mod_eq_of_lt h3]
  ring

/-- Claim C6 (confirmed): the rev8 semantic function reverses the byte order
of the 32-bit word, and on 32-bit inputs it is an involution. -/
theorem rev8_reverses_and_involutive :
    (∀ a : Nat,
        RiscVRev8 a =
          256 * (256 * (256 * (a % 256) + a / 256 % 256) +
            a / 256 / 256 % 256) + a / 256 / 256 / 256 % 256) ∧
      ∀ a : Nat, a < 2 ^ 32 → RiscVRev8 (RiscVRev8 a) = a := by
  refine ⟨rev8_eq, ?_⟩
  intro a ha
  have ha' : a < 4294967296 := ha
  obtain ⟨b0, b1, b2, b3, hb0, hb1, hb2, hb3, rfl⟩ :
      ∃ b0 b1 b2 b3, b0 < 256 ∧ b1 < 256 ∧ b2 < 256 ∧ b3 < 256 ∧
        a = b0 + 256 * (b1 + 256 * (b2 + 256 * b3)) :=
    ⟨a % 256, a / 256 % 256, a / 256 / 256 % 256, a / 256 / 256 / 256,
      by omega, by omega, by omega, by omega, by omega⟩
  rw [rev8_bytes b0 b1 b2 b3 hb0 hb1 hb2 hb3,
    rev8_bytes b3 b2 b1 b0 hb3 hb2 hb1 hb0]

/-- Witness for the C6 theorem at a = 0x12345678. -/
theorem rev8_reverses_and_involutive_witness :
    RiscVRev8 (RiscVRev8 0x12345678) = 0x12345678 :=
  rev8_reverses_and_involutive.2 0x12345678 (by decide)

/-- Helper: masking with 31 is reduction mod 32. -/
theorem and_31 (x : Nat) : x &&& 31 = x % 32 := by
  have h : (31 : Nat) = 2 ^ 5 - 1 := by norm_num
  rw [h, Nat.and_pow_two_sub_one_eq_mod]

/-- Claim C7 (confirmed): bclr, bset, binv, bext operate on bit index
rs2 mod 32, and for every x and every k below 32,
bext(bset(x, k), k) = 1 and bclr(bset(x, k), k) = bclr(x, k). -/
theorem single_bit_semantics :
    (∀ x b : Nat,
        RiscVBclr x b = RiscVBclr x (b % 32) ∧
          RiscVBset x b = RiscVBset x (b % 32) ∧
            RiscVBinv x b = RiscVBinv x (b % 32) ∧
              RiscVBext x b = RiscVBext x (b % 32)) ∧
      ∀ x k : Nat, k ≤ 31 →
        RiscVBext (RiscVBset x k) k = 1 ∧
          RiscVBclr (RiscVBset x k) k = RiscVBclr x k := by
  have hmm : ∀ b : Nat, b % 32 % 32 = b % 32 := fun b => by omega
  constructor
  · intro x b
    refine ⟨?_, ?_, ?_, ?_⟩
    · show x &&& complement32 (1 <<< (b &&& 31)) =
        x &&& complement32 (1 <<< (b % 32 &&& 31))
      rw [and_31 b, and_31 (b % 32), hmm b]
    · show x ||| (1 <<< (b &&& 31)) = x ||| (1 <<< (b % 32 &&& 31))
      rw [and_31 b, and_31 (b % 32), hmm b]
    · show x ^^^ (1 <<< (b &&& 31)) = x ^^^ (1 <<< (b % 32 &&& 31))
      rw [and_31 b, and_31 (b % 32), hmm b]
    · show (x >>> (b &&& 31)) &&& 1 = (x >>> (b % 32 &&& 31)) &&& 1
      rw [and_31 b, and_31 (b % 32), hmm b]
  · intro x k hk
    have hk32 : k < 32 := by omega
    have hmask : k &&& 31 = k := by rw [and_31]; exact Nat.mod_eq_of_lt hk32
    constructor
    · show ((x ||| (1 <<< (k &&& 31))) >>> (k &&& 31)) &&& 1 = 1
      rw [hmask, Nat.one_shiftLeft, Nat.and_one_is_mod,
        Nat.shiftRight_eq_div_pow]
      have hbit : (x ||| 2 ^ k).testBit k = true := by
        simp [Nat.testBit_or, Nat.testBit_two_pow_self]
      rw [Nat.testBit_to_div_mod] at hbit
      exact of_decide_eq_true hbit
    · show (x ||| (1 <<< (k &&& 31))) &&& complement32 (1 <<< (k &&& 31)) =
        x &&& complement32 (1 <<< (k &&& 31))
      rw [hmask, Nat.one_shiftLeft, complement32]
      apply Nat.eq_of_testBit_eq
      intro i
      simp only [Nat.testBit_and, Nat.testBit_or, Nat.testBit_xor,
        Nat.testBit_two_pow_sub_one, Nat.testBit_two_pow]
      by_cases hik : k = i
      · subst hik
        simp [hk32]
      · simp [hik]

/-- Witness for the C7 theorem at x = 0xCAFE, b = 37, k = 5. -/
theorem single_bit_semantics_witness :
    RiscVBclr 0xCAFE 37 = RiscVBclr 0xCAFE (37 % 32) ∧
      RiscVBext (RiscVBset 0xCAFE 5) 5 = 1 :=
  ⟨(single_bit_semantics.1 0xCAFE 37).1,
    (single_bit_semantics.2 0xCAFE 5 (by decide)).1⟩

end MpactRiscv
